import Mathlib

/-!
# Verification of the PDF conversion service (`src/server.js`)

Shallow embedding of the single-file Express service that converts a PDF
into tiered WebP page assets, uploads them to object storage and publishes
a manifest.  Pure computations (path construction, filename sorting, resize
parameter selection, manifest assembly) are translated directly; the
effectful pipeline of the `POST /convert` handler is modelled as a function
from an environment of effect oracles (download success, rasterizer
success, produced files, image metadata, per-path upload success) to the
HTTP response together with an explicit trace of the side effects
performed, in order.
-/

namespace ConversionService

/-- JS truthiness of an optional numeric field: `undefined` and `0` are falsy. -/
def jsTruthyNat : Option Nat → Bool
  | none => false
  | some n => n != 0

/-- A variant specification (`{ key, width, height?, quality }`). -/
structure VariantSpec where
  key : String
  width : Nat
  height : Option Nat := none
  quality : Nat
deriving Repr, DecidableEq

/-- The module-level `VARIANTS` default list. -/
def VARIANTS : List VariantSpec :=
  [{ key := "low", width := 900, quality := 72 },
   { key := "medium", width := 1400, quality := 80 },
   { key := "high", width := 2400, quality := 90 }]

/-- The module-level `THUMBNAIL_VARIANT` default. -/
def THUMBNAIL_VARIANT : VariantSpec := { key := "thumbnail", width := 360, quality := 60 }

/-- `String.prototype.startsWith`, on the character sequence. -/
def strStartsWith (s pre : String) : Bool := pre.toList.isPrefixOf s.toList

/-- `String.prototype.endsWith`, on the character sequence. -/
def strEndsWith (s suff : String) : Bool := suff.toList.isSuffixOf s.toList

/-- `ensureTrailingSlash`. -/
def ensureTrailingSlash (value : String) : String :=
  if strEndsWith value "/" then value else value ++ "/"

/-- `padNumber`: `String(value).padStart(size, '0')` with the default size 3. -/
def padNumber (value : Nat) : String :=
  let s := toString value
  String.mk (List.replicate (3 - s.length) '0') ++ s

/-- `buildStoragePath`. -/
def buildStoragePath (editionId variant : String) (pageNumber : Nat) : String :=
  editionId ++ "/pages/" ++ variant ++ "/" ++ padNumber pageNumber ++ ".webp"

/-- Value of the decimal digit list produced by `parseInt(_, 10)`;
the empty list (no match, i.e. `parseInt('0')`) gives 0. -/
def digitsVal (cs : List Char) : Nat :=
  cs.foldl (fun a c => a * 10 + (c.toNat - 48)) 0

/-- The numeric page index the comparator of `convertPdfToPng` extracts:
`parseInt(file.match(/(\d+)\.png$/)?.[1] ?? '0', 10)` — the maximal run of
digits immediately before a terminal `.png`, or 0 when there is none. -/
def pageIndexOf (file : String) : Nat :=
  if strEndsWith file ".png" then
    digitsVal (((file.toList.take (file.toList.length - 4)).reverse.takeWhile Char.isDigit).reverse)
  else 0

/-- Comparator used to sort rasterizer output: ascending numeric page index
(`(a, b) => pageA - pageB`). -/
def pageLE (a b : String) : Prop := pageIndexOf a ≤ pageIndexOf b

instance : DecidableRel pageLE := fun a b => Nat.decLe (pageIndexOf a) (pageIndexOf b)

instance : IsTotal String pageLE := ⟨fun a b => Nat.le_total (pageIndexOf a) (pageIndexOf b)⟩

instance : IsTrans String pageLE := ⟨fun _ _ _ h h₂ => Nat.le_trans h h₂⟩

/-- The filter of `convertPdfToPng`: keep files matching
`file.startsWith('page') && file.endsWith('.png')`. -/
def filterPageFiles (files : List String) : List String :=
  files.filter (fun f => strStartsWith f "page" && strEndsWith f ".png")

/-- Filter then sort, exactly the pure part of `convertPdfToPng` before the
`path.join` mapping. -/
def sortPageFiles (files : List String) : List String :=
  (filterPageFiles files).insertionSort pageLE

/-- Pure core of `convertPdfToPng`: the subprocess invocation itself is
modelled by the `rasterOk` oracle in the handler; given the files found in
the output directory afterwards, filter, sort numerically, and join with
the output directory. -/
def convertPdfToPng (outputDir : String) (files : List String) : List String :=
  (sortPageFiles files).map (fun f => outputDir ++ "/" ++ f)

/-- `sharp` metadata of a decoded page (`width`/`height` may be undefined). -/
structure Metadata where
  width : Option Nat := none
  height : Option Nat := none
deriving Repr, DecidableEq

/-- The resize operation selected by `cloneSharpForVariant`:
either a cover fit to an exact box, or a proportional width-only resize
with `withoutEnlargement: true`. -/
inductive ResizeOp where
  | cover (width height : Nat)
  | widthOnly (width : Nat)
deriving Repr, DecidableEq

/-- The width parameter handed to the resize step. -/
def ResizeOp.targetWidth : ResizeOp → Nat
  | .cover w _ => w
  | .widthOnly w => w

/-- The observable parameters of one rendered variant. -/
structure RenderedVariant where
  resize : ResizeOp
  quality : Nat
deriving Repr, DecidableEq

/-- `cloneSharpForVariant`: `targetWidth = Math.min(config.width,
metadata.width ?? config.width)`; the `if (config.height)` truthiness test
selects between the cover fit and the proportional resize. -/
def cloneSharpForVariant (metadata : Metadata) (config : VariantSpec) : RenderedVariant :=
  let maxWidth := metadata.width.getD config.width
  let targetWidth := min config.width maxWidth
  if jsTruthyNat config.height then
    { resize := .cover targetWidth (config.height.getD 0), quality := config.quality }
  else
    { resize := .widthOnly targetWidth, quality := config.quality }

/-- One uploaded asset: storage path and public URL. -/
structure AssetRecord where
  path : String
  publicUrl : String
deriving Repr, DecidableEq

/-- `getPublicUrl`: the deterministic public URL supabase-js derives from
the project URL, bucket and storage path. -/
def getPublicUrl (supabaseUrl bucket storagePath : String) : String :=
  supabaseUrl ++ "/storage/v1/object/public/" ++ bucket ++ "/" ++ storagePath

/-- JS object property assignment `m[k] = v` on a string-keyed object kept
as an insertion-ordered association list: overwrite in place, else append. -/
def setKey (m : List (String × AssetRecord)) (k : String) (v : AssetRecord) :
    List (String × AssetRecord) :=
  match m with
  | [] => [(k, v)]
  | (k₂, v₂) :: rest => if k₂ = k then (k, v) :: rest else (k₂, v₂) :: setKey rest k v

/-- One element of `manifestPages`. -/
structure PageEntry where
  pageNumber : Nat
  width : Option Nat
  height : Option Nat
  assets : List (String × AssetRecord)
deriving Repr, DecidableEq

/-- One element of `manifest.pages` (an absent JS value is `none`). -/
structure PageSummary where
  pageNumber : Nat
  width : Option Nat
  height : Option Nat
  lowResImagePath : Option String
  mediumImagePath : Option String
  highResImagePath : Option String
  thumbnailPath : Option String
deriving Repr, DecidableEq

/-- The manifest object (its `generatedAt` wall-clock timestamp is outside
the model). -/
structure Manifest where
  editionId : String
  totalPages : Nat
  assetsBaseUrl : String
  bucket : String
  pages : List PageSummary
deriving Repr, DecidableEq

/-- The per-page summary mapping of `manifest.pages` (server.js lines
207-215): each field with its `?? `-fallback chain. -/
def pageToSummary (thumbnailKey : String) (page : PageEntry) : PageSummary :=
  { pageNumber := page.pageNumber
    width := page.width
    height := page.height
    lowResImagePath :=
      ((page.assets.lookup "low").map AssetRecord.path).orElse
        (fun _ => (page.assets.lookup "medium").map AssetRecord.path)
    mediumImagePath := (page.assets.lookup "medium").map AssetRecord.path
    highResImagePath := (page.assets.lookup "high").map AssetRecord.path
    thumbnailPath :=
      ((page.assets.lookup thumbnailKey).map AssetRecord.path).orElse
        (fun _ => (page.assets.lookup "low").map AssetRecord.path) }

/-- The `manifest` object assembled before upload. -/
def buildManifest (editionId bucketBaseUrl bucket thumbnailKey : String)
    (entries : List PageEntry) : Manifest :=
  { editionId := editionId
    totalPages := entries.length
    assetsBaseUrl := bucketBaseUrl
    bucket := bucket
    pages := entries.map (pageToSummary thumbnailKey) }

/-- Modelled from the spec: the per-page fallback rule of §4.5, each
summary field computed independently from the asset map —
`lowResImagePath` is the low variant's path, else the medium variant's
path, else absent; `mediumImagePath` is the medium variant's path or
absent; `highResImagePath` is the high variant's path or absent;
`thumbnailPath` is the path under the configured thumbnail key, else the
low variant's path, else absent. -/
def specPageSummary (thumbnailKey : String) (page : PageEntry) : PageSummary :=
  { pageNumber := page.pageNumber
    width := page.width
    height := page.height
    lowResImagePath :=
      match page.assets.lookup "low" with
      | some a => some a.path
      | none =>
        match page.assets.lookup "medium" with
        | some a => some a.path
        | none => none
    mediumImagePath :=
      match page.assets.lookup "medium" with
      | some a => some a.path
      | none => none
    highResImagePath :=
      match page.assets.lookup "high" with
      | some a => some a.path
      | none => none
    thumbnailPath :=
      match page.assets.lookup thumbnailKey with
      | some a => some a.path
      | none =>
        match page.assets.lookup "low" with
        | some a => some a.path
        | none => none }

/-- The JSON body of a `POST /convert` request together with its
`X-Api-Key` header.  A missing string field destructures in JS to
`undefined`, which the `!field` validation treats exactly like `''`, so the
four required fields are modelled as strings with `""` for absent; the
defaulted fields keep their `undefined`-vs-present distinction as
`Option`. -/
structure ConvertRequest where
  headerApiKey : Option String := none
  editionId : String := ""
  pdfUrl : String := ""
  supabaseUrl : String := ""
  supabaseKey : String := ""
  bucket : Option String := none
  variants : Option (List VariantSpec) := none
  thumbnail : Option VariantSpec := none

/-- One observable side effect of the handler, in execution order. -/
inductive Effect where
  | createTempDir
  | download (url : String)
  | rasterize
  | render (pageNumber : Nat) (key : String)
  | upload (path : String) (ok : Bool)
  | removeDir
deriving Repr, DecidableEq

/-- Environment of effect oracles: configuration read from the process
environment plus the outcome of each external interaction. -/
structure Env where
  secret : String := ""
  defaultBucket : String := "editions"
  downloadOk : Bool := true
  rasterOk : Bool := true
  rasterFiles : List String := []
  pageMeta : String → Metadata := fun _ => {}
  uploadOk : String → Bool := fun _ => true

/-- The success payload returned by the handler (`res.json({...})`). -/
structure SuccessPayload where
  editionId : String
  bucket : String
  manifestPath : String
  totalPages : Nat
  pages : List PageEntry
  uploads : List String
deriving Repr, DecidableEq

/-- The HTTP response: `res.json` on success, `res.status(s).json` with
`success: false` and a message otherwise. -/
inductive Response where
  | ok (payload : SuccessPayload)
  | err (status : Nat) (message : String)
deriving Repr, DecidableEq

/-- The `success` field of the response envelope. -/
def Response.success : Response → Bool
  | .ok _ => true
  | .err _ _ => false

/-- The HTTP status of the response (`res.json` defaults to 200). -/
def Response.status : Response → Nat
  | .ok _ => 200
  | .err s _ => s

/-- The inner loop `for (const variant of variants)` of one page: render
the variant, upload it (an upload failure throws and aborts), record the
asset and push the storage path.  Returns the trace of effects and either
the error message thrown or the updated asset map and uploads list. -/
def processVariants (env : Env) (editionId bucket supabaseUrl : String) (pageNumber : Nat)
    (meta : Metadata) :
    List VariantSpec → List (String × AssetRecord) → List String →
    List Effect × Except String (List (String × AssetRecord) × List String)
  | [], assets, uploads => ([], .ok (assets, uploads))
  | v :: rest, assets, uploads =>
    if env.uploadOk (buildStoragePath editionId v.key pageNumber) then
      let step := processVariants env editionId bucket supabaseUrl pageNumber meta rest
        (setKey assets v.key
          { path := buildStoragePath editionId v.key pageNumber,
            publicUrl := getPublicUrl supabaseUrl bucket
              (buildStoragePath editionId v.key pageNumber) })
        (uploads ++ [buildStoragePath editionId v.key pageNumber])
      (Effect.render pageNumber v.key
        :: Effect.upload (buildStoragePath editionId v.key pageNumber) true :: step.1, step.2)
    else
      ([Effect.render pageNumber v.key,
        Effect.upload (buildStoragePath editionId v.key pageNumber) false],
       .error ("Failed to upload " ++ buildStoragePath editionId v.key pageNumber
         ++ ": upload error"))

/-- The body of one iteration of the page loop (server.js lines 158-197):
read metadata, render and upload every configured variant, then the
thumbnail (whose storage path is the inline template literal of line 181),
and assemble the page's manifest entry. -/
def processPage (env : Env) (editionId bucket supabaseUrl : String)
    (variants : List VariantSpec) (thumbnail : VariantSpec)
    (pageNumber : Nat) (pngPath : String) :
    List Effect × Except String (PageEntry × List String) :=
  let thumbStoragePath :=
    editionId ++ "/pages/" ++ thumbnail.key ++ "/" ++ padNumber pageNumber ++ ".webp"
  match processVariants env editionId bucket supabaseUrl pageNumber (env.pageMeta pngPath)
      variants [] [] with
  | (tr, .error e) => (tr, .error e)
  | (tr, .ok (assets, uploads)) =>
    if env.uploadOk thumbStoragePath then
      (tr ++ [Effect.render pageNumber thumbnail.key, Effect.upload thumbStoragePath true],
       .ok ({ pageNumber := pageNumber, width := (env.pageMeta pngPath).width,
              height := (env.pageMeta pngPath).height,
              assets := setKey assets thumbnail.key
                { path := thumbStoragePath,
                  publicUrl := getPublicUrl supabaseUrl bucket thumbStoragePath } },
            uploads ++ [thumbStoragePath]))
    else
      (tr ++ [Effect.render pageNumber thumbnail.key, Effect.upload thumbStoragePath false],
       .error ("Failed to upload " ++ thumbStoragePath ++ ": upload error"))

/-- The page loop `for (let index = 0; ...)`: pages processed in order,
`pageNumber = index + 1`; the first thrown error aborts the loop. -/
def processPages (env : Env) (editionId bucket supabaseUrl : String)
    (variants : List VariantSpec) (thumbnail : VariantSpec) :
    Nat → List String → List Effect × Except String (List PageEntry × List String)
  | _, [] => ([], .ok ([], []))
  | pageNumber, png :: rest =>
    match processPage env editionId bucket supabaseUrl variants thumbnail pageNumber png with
    | (tr, .error e) => (tr, .error e)
    | (tr, .ok (entry, uploads)) =>
      match processPages env editionId bucket supabaseUrl variants thumbnail
          (pageNumber + 1) rest with
      | (tr₂, .error e) => (tr ++ tr₂, .error e)
      | (tr₂, .ok (entries, uploads₂)) =>
        (tr ++ tr₂, .ok (entry :: entries, uploads ++ uploads₂))

/-- Directory name standing for the request's `pngDir` (its random
`mkdtemp` component is irrelevant to every claim). -/
def pngDirName : String := "png"

/-- The `POST /convert` handler.  Mirrors server.js lines 113-239: shared
secret check, required-field validation, temp-dir creation, download,
rasterization, zero-page check, the page loop, manifest build and upload,
and cleanup.  `removeDirSafe` runs only where the source calls it (line
221, the success path); the catch block (lines 232-238) returns a 500
envelope without cleanup. -/
def convertHandler (env : Env) (req : ConvertRequest) : Response × List Effect :=
  let requestSecret := req.headerApiKey.getD ""
  if env.secret ≠ "" ∧ requestSecret ≠ env.secret then
    (.err 401 "Unauthorized", [])
  else
    let bucket := req.bucket.getD env.defaultBucket
    let variants := req.variants.getD VARIANTS
    let thumbnail := req.thumbnail.getD THUMBNAIL_VARIANT
    if req.editionId = "" ∨ req.pdfUrl = "" ∨ req.supabaseUrl = "" ∨ req.supabaseKey = "" then
      (.err 400 "Missing required parameters (editionId, pdfUrl, supabaseUrl, supabaseKey)", [])
    else
      if !env.downloadOk then
        (.err 500 "download failed", [Effect.createTempDir, Effect.download req.pdfUrl])
      else
        if !env.rasterOk then
          (.err 500 "pdftoppm failed: raster error",
           [Effect.createTempDir, Effect.download req.pdfUrl, Effect.rasterize])
        else
          let pngPages := convertPdfToPng pngDirName env.rasterFiles
          if pngPages.length = 0 then
            (.err 500 "No pages produced during PDF conversion",
             [Effect.createTempDir, Effect.download req.pdfUrl, Effect.rasterize])
          else
            let bucketBaseUrl := ensureTrailingSlash
              (req.supabaseUrl ++ "/storage/v1/object/public/" ++ bucket)
            match processPages env req.editionId bucket req.supabaseUrl variants thumbnail
                1 pngPages with
            | (trP, .error e) =>
              (.err 500 e,
               [Effect.createTempDir, Effect.download req.pdfUrl, Effect.rasterize] ++ trP)
            | (trP, .ok (entries, uploads)) =>
              let manifest := buildManifest req.editionId bucketBaseUrl bucket
                thumbnail.key entries
              let manifestPath := req.editionId ++ "/manifest.json"
              let ok := env.uploadOk manifestPath
              if ok then
                (.ok { editionId := req.editionId, bucket := bucket,
                       manifestPath := manifestPath,
                       totalPages := manifest.pages.length,
                       pages := entries, uploads := uploads },
                 [Effect.createTempDir, Effect.download req.pdfUrl, Effect.rasterize] ++ trP
                   ++ [Effect.upload manifestPath ok, Effect.removeDir])
              else
                (.err 500 ("Failed to upload " ++ manifestPath ++ ": upload error"),
                 [Effect.createTempDir, Effect.download req.pdfUrl, Effect.rasterize] ++ trP
                   ++ [Effect.upload manifestPath ok])

/-- Modelled from the spec: the storage-path convention of §6 — for pages
1..totalPages, each configured variant's asset at
`editionId/pages/variantKey/NNN.webp` followed by the thumbnail asset of
that page, pages in ascending order. -/
def specUploadPaths (editionId : String) (variants : List VariantSpec)
    (thumbnailKey : String) (totalPages : Nat) : List String :=
  (List.range' 1 totalPages).flatMap (fun n =>
    variants.map (fun v => editionId ++ "/pages/" ++ v.key ++ "/" ++ padNumber n ++ ".webp")
      ++ [editionId ++ "/pages/" ++ thumbnailKey ++ "/" ++ padNumber n ++ ".webp"])

/-- Is this effect an upload event? -/
def isUpload : Effect → Bool
  | .upload _ _ => true
  | _ => false

/-- Is this effect an upload of a path other than `mp`? -/
def isAssetUpload (mp : String) : Effect → Bool
  | .upload p _ => p != mp
  | _ => false

/-- The variants actually used: the request's list or the `VARIANTS` default. -/
def variantsOf (req : ConvertRequest) : List VariantSpec := req.variants.getD VARIANTS

/-- The thumbnail spec actually used. -/
def thumbOf (req : ConvertRequest) : VariantSpec := req.thumbnail.getD THUMBNAIL_VARIANT

/-- The bucket actually used. -/
def bucketOf (env : Env) (req : ConvertRequest) : String := req.bucket.getD env.defaultBucket

/-- The sorted page files the rasterizer step yields in environment `env`. -/
def pngPagesOf (env : Env) : List String := convertPdfToPng pngDirName env.rasterFiles

/-- The manifest storage path of a request. -/
def mpOf (req : ConvertRequest) : String := req.editionId ++ "/manifest.json"

/-- A valid request with one custom variant and the default-named thumbnail. -/
def wReqStd : ConvertRequest :=
  { editionId := "ed", pdfUrl := "http://h/f.pdf", supabaseUrl := "http://sb",
    supabaseKey := "k",
    variants := some [{ key := "low", width := 900, quality := 72 }],
    thumbnail := some { key := "thumbnail", width := 360, quality := 60 } }

/-- An environment where everything succeeds and rasterization yields one page. -/
def wEnvOk : Env :=
  { rasterFiles := ["page-1.png"],
    pageMeta := fun _ => { width := some 1000, height := some 1500 } }

/-- Same environment but the rasterizer fails. -/
def wEnvRasterFail : Env := { wEnvOk with rasterOk := false }

/-- Same environment but the upload of the first page's `low` asset fails. -/
def wEnvUploadFail : Env :=
  { wEnvOk with uploadOk := fun p => p != "ed/pages/low/001.webp" }

/-- Same environment but the rasterizer produces zero page files. -/
def wEnvZeroPages : Env := { wEnvOk with rasterFiles := [] }

/-- An environment with a configured shared secret. -/
def wEnvSecret : Env := { wEnvOk with secret := "s" }

/-- A request with an empty `editionId` and no `X-Api-Key` header. -/
def wReqNoEdition : ConvertRequest := { wReqStd with editionId := "" }

/-- The payload `convertHandler wEnvOk wReqStd` returns. -/
def wPayloadStd : SuccessPayload :=
  { editionId := "ed", bucket := "editions", manifestPath := "ed/manifest.json",
    totalPages := 1,
    pages := [{ pageNumber := 1, width := some 1000, height := some 1500,
                assets := [("low",
                            { path := "ed/pages/low/001.webp",
                              publicUrl :=
                                "http://sb/storage/v1/object/public/editions/ed/pages/low/001.webp" }),
                           ("thumbnail",
                            { path := "ed/pages/thumbnail/001.webp",
                              publicUrl :=
                                "http://sb/storage/v1/object/public/editions/ed/pages/thumbnail/001.webp" })] }],
    uploads := ["ed/pages/low/001.webp", "ed/pages/thumbnail/001.webp"] }

/-- The effect trace of `convertHandler wEnvOk wReqStd`. -/
def wTraceStd : List Effect :=
  [Effect.createTempDir, Effect.download "http://h/f.pdf", Effect.rasterize,
   Effect.render 1 "low", Effect.upload "ed/pages/low/001.webp" true,
   Effect.render 1 "thumbnail", Effect.upload "ed/pages/thumbnail/001.webp" true,
   Effect.upload "ed/manifest.json" true, Effect.removeDir]

/-- Metadata of a 100×150 source page. -/
def wMeta : Metadata := { width := some 100, height := some 150 }

/-- A variant spec requesting a cover fit (nonzero height). -/
def wCfgCover : VariantSpec := { key := "thumbnail", width := 360, height := some 480, quality := 60 }

/-- A variant spec whose `height` is present but zero. -/
def wCfgZeroHeight : VariantSpec := { key := "t", width := 50, height := some 0, quality := 60 }

/-! ## Helper lemmas -/

/-- A page-asset storage path is never the manifest path, whatever the
edition id, variant key and padded page number. -/
theorem asset_path_ne_manifest (e k p : String) :
    e ++ "/pages/" ++ k ++ "/" ++ p ++ ".webp" ≠ e ++ "/manifest.json" := by
  intro h
  have hd := congrArg String.data h
  simp only [String.data_append, List.append_assoc] at hd
  have h₂ := List.append_cancel_left hd
  simp only [List.cons_append, List.cons.injEq] at h₂
  exact absurd h₂.2.1 (by decide)

/-- Every element of the spec's upload-path list is a page-asset path. -/
theorem mem_specUploadPaths {e tk u : String} {vs : List VariantSpec} {P : Nat}
    (hu : u ∈ specUploadPaths e vs tk P) :
    ∃ k n, u = e ++ "/pages/" ++ k ++ "/" ++ padNumber n ++ ".webp" := by
  rw [specUploadPaths, List.mem_flatMap] at hu
  obtain ⟨n, -, hn⟩ := hu
  rcases List.mem_append.mp hn with hm | hm
  · obtain ⟨v, -, rfl⟩ := List.mem_map.mp hm
    exact ⟨v.key, n, rfl⟩
  · rw [List.mem_singleton] at hm
    exact ⟨tk, n, hm⟩

/-- On success, the variant loop appends exactly one storage path per
variant, in variant order. -/
theorem processVariants_ok_uploads {env : Env} {e b su : String} {n : Nat} {meta : Metadata}
    {vs : List VariantSpec} {assets : List (String × AssetRecord)} {ups : List String}
    {tr : List Effect} {assets₂ : List (String × AssetRecord)} {ups₂ : List String}
    (h : processVariants env e b su n meta vs assets ups = (tr, .ok (assets₂, ups₂))) :
    ups₂ = ups ++ vs.map (fun v => e ++ "/pages/" ++ v.key ++ "/" ++ padNumber n ++ ".webp") := by
  induction vs generalizing assets ups tr assets₂ ups₂ with
  | nil =>
    simp only [processVariants, Prod.mk.injEq, Except.ok.injEq] at h
    simp [← h.2.2]
  | cons v rest ih =>
    simp only [processVariants] at h
    split at h
    · rcases hstep : processVariants env e b su n meta rest
          (setKey assets v.key
            { path := buildStoragePath e v.key n,
              publicUrl := getPublicUrl su b (buildStoragePath e v.key n) })
          (ups ++ [buildStoragePath e v.key n]) with ⟨tr₂, r₂⟩
      rw [hstep] at h
      have h₂ : r₂ = .ok (assets₂, ups₂) := by
        simpa using congrArg Prod.snd h
      rw [h₂] at hstep
      have := ih hstep
      simp only [this, List.map_cons, buildStoragePath, List.append_assoc, List.cons_append,
        List.nil_append]
    · exact absurd (congrArg Prod.snd h) (by simp)

/-- Every upload event the variant loop records targets a page-asset path
of the current page. -/
theorem processVariants_trace_shape {env : Env} {e b su : String} {n : Nat} {meta : Metadata}
    {vs : List VariantSpec} {assets : List (String × AssetRecord)} {ups : List String}
    {p : String} {bb : Bool}
    (hm : Effect.upload p bb ∈ (processVariants env e b su n meta vs assets ups).1) :
    ∃ k, p = e ++ "/pages/" ++ k ++ "/" ++ padNumber n ++ ".webp" := by
  induction vs generalizing assets ups with
  | nil => simp [processVariants] at hm
  | cons v rest ih =>
    simp only [processVariants] at hm
    split at hm
    · simp only [List.mem_cons] at hm
      rcases hm with heq | heq | hm
      · exact absurd heq (by simp)
      · cases heq
        exact ⟨v.key, rfl⟩
      · exact ih hm
    · simp only [List.mem_cons, List.not_mem_nil, or_false] at hm
      rcases hm with heq | heq
      · exact absurd heq (by simp)
      · cases heq
        exact ⟨v.key, rfl⟩

/-- On success, every upload event the variant loop recorded succeeded. -/
theorem processVariants_ok_all_true {env : Env} {e b su : String} {n : Nat} {meta : Metadata}
    {vs : List VariantSpec} {assets : List (String × AssetRecord)} {ups : List String}
    {tr : List Effect} {res : List (String × AssetRecord) × List String}
    (h : processVariants env e b su n meta vs assets ups = (tr, .ok res))
    {p : String} {bb : Bool} (hm : Effect.upload p bb ∈ tr) : bb = true := by
  induction vs generalizing assets ups tr res with
  | nil =>
    have := congrArg Prod.fst h
    simp only [processVariants] at this
    rw [← this] at hm
    cases hm
  | cons v rest ih =>
    simp only [processVariants] at h
    split at h
    · rcases hstep : processVariants env e b su n meta rest
          (setKey assets v.key
            { path := buildStoragePath e v.key n,
              publicUrl := getPublicUrl su b (buildStoragePath e v.key n) })
          (ups ++ [buildStoragePath e v.key n]) with ⟨tr₂, r₂⟩
      rw [hstep] at h
      have h₁ : Effect.render n v.key :: Effect.upload (buildStoragePath e v.key n) true
          :: tr₂ = tr := by
        simpa using congrArg Prod.fst h
      have h₂ : r₂ = .ok res := by simpa using congrArg Prod.snd h
      rw [h₂] at hstep
      rw [← h₁] at hm
      simp only [List.mem_cons] at hm
      rcases hm with heq | heq | hm
      · exact absurd heq (by simp)
      · cases heq; rfl
      · exact ih hstep hm
    · exact absurd (congrArg Prod.snd h) (by simp)

/-- On success, the variant loop records exactly one upload per variant. -/
theorem processVariants_ok_count {env : Env} {e b su : String} {n : Nat} {meta : Metadata}
    {vs : List VariantSpec} {assets : List (String × AssetRecord)} {ups : List String}
    {tr : List Effect} {res : List (String × AssetRecord) × List String}
    (h : processVariants env e b su n meta vs assets ups = (tr, .ok res)) :
    tr.countP isUpload = vs.length := by
  induction vs generalizing assets ups tr res with
  | nil =>
    have := congrArg Prod.fst h
    simp only [processVariants] at this
    simp [← this]
  | cons v rest ih =>
    simp only [processVariants] at h
    split at h
    · rcases hstep : processVariants env e b su n meta rest
          (setKey assets v.key
            { path := buildStoragePath e v.key n,
              publicUrl := getPublicUrl su b (buildStoragePath e v.key n) })
          (ups ++ [buildStoragePath e v.key n]) with ⟨tr₂, r₂⟩
      rw [hstep] at h
      have h₁ : Effect.render n v.key :: Effect.upload (buildStoragePath e v.key n) true
          :: tr₂ = tr := by
        simpa using congrArg Prod.fst h
      have h₂ : r₂ = .ok res := by simpa using congrArg Prod.snd h
      rw [h₂] at hstep
      rw [← h₁]
      simp [List.countP_cons, isUpload, ih hstep, Nat.add_comm]
    · exact absurd (congrArg Prod.snd h) (by simp)

/-- On success, one page uploads its variants in order and then its
thumbnail, and its manifest entry carries the 1-based page number. -/
theorem processPage_ok_uploads {env : Env} {e b su : String} {vs : List VariantSpec}
    {th : VariantSpec} {n : Nat} {png : String} {tr : List Effect} {entry : PageEntry}
    {ups : List String}
    (h : processPage env e b su vs th n png = (tr, .ok (entry, ups))) :
    ups = vs.map (fun v => e ++ "/pages/" ++ v.key ++ "/" ++ padNumber n ++ ".webp")
        ++ [e ++ "/pages/" ++ th.key ++ "/" ++ padNumber n ++ ".webp"] ∧
      entry.pageNumber = n := by
  simp only [processPage] at h
  split at h
  · exact absurd (congrArg Prod.snd h) (by simp)
  · rename_i trV assets uploadsV heq
    split at h
    · have h₂ := congrArg Prod.snd h
      simp only [Except.ok.injEq, Prod.mk.injEq] at h₂
      obtain ⟨hent, hups⟩ := h₂
      refine ⟨?_, ?_⟩
      · rw [← hups, processVariants_ok_uploads heq]
        simp
      · rw [← hent]
    · exact absurd (congrArg Prod.snd h) (by simp)

/-- Every upload event one page records targets a page-asset path of that
page. -/
theorem processPage_trace_shape {env : Env} {e b su : String} {vs : List VariantSpec}
    {th : VariantSpec} {n : Nat} {png : String} {p : String} {bb : Bool}
    (hm : Effect.upload p bb ∈ (processPage env e b su vs th n png).1) :
    ∃ k, p = e ++ "/pages/" ++ k ++ "/" ++ padNumber n ++ ".webp" := by
  simp only [processPage] at hm
  split at hm
  · rename_i trV msg heq
    have h₁ : trV = (processVariants env e b su n (env.pageMeta png) vs [] []).1 := by
      rw [heq]
    rw [h₁] at hm
    exact processVariants_trace_shape hm
  · rename_i trV assets uploadsV heq
    have h₁ : trV = (processVariants env e b su n (env.pageMeta png) vs [] []).1 := by
      rw [heq]
    split at hm <;>
    · simp only [List.mem_append, List.mem_cons, List.not_mem_nil, or_false] at hm
      rcases hm with hm | heq₂ | heq₂
      · rw [h₁] at hm
        exact processVariants_trace_shape hm
      · exact absurd heq₂ (by simp)
      · cases heq₂
        exact ⟨th.key, rfl⟩

/-- On success, every upload event one page recorded succeeded. -/
theorem processPage_ok_all_true {env : Env} {e b su : String} {vs : List VariantSpec}
    {th : VariantSpec} {n : Nat} {png : String} {tr : List Effect}
    {res : PageEntry × List String}
    (h : processPage env e b su vs th n png = (tr, .ok res))
    {p : String} {bb : Bool} (hm : Effect.upload p bb ∈ tr) : bb = true := by
  simp only [processPage] at h
  split at h
  · exact absurd (congrArg Prod.snd h) (by simp)
  · rename_i trV assets uploadsV heq
    split at h
    · have h₁ : trV ++ [Effect.render n th.key,
          Effect.upload (e ++ "/pages/" ++ th.key ++ "/" ++ padNumber n ++ ".webp") true]
          = tr := by
        simpa using congrArg Prod.fst h
      rw [← h₁] at hm
      simp only [List.mem_append, List.mem_cons, List.not_mem_nil, or_false] at hm
      rcases hm with hm | heq₂ | heq₂
      · exact processVariants_ok_all_true heq hm
      · exact absurd heq₂ (by simp)
      · cases heq₂; rfl
    · exact absurd (congrArg Prod.snd h) (by simp)

/-- On success, one page records exactly `vs.length + 1` uploads. -/
theorem processPage_ok_count {env : Env} {e b su : String} {vs : List VariantSpec}
    {th : VariantSpec} {n : Nat} {png : String} {tr : List Effect}
    {res : PageEntry × List String}
    (h : processPage env e b su vs th n png = (tr, .ok res)) :
    tr.countP isUpload = vs.length + 1 := by
  simp only [processPage] at h
  split at h
  · exact absurd (congrArg Prod.snd h) (by simp)
  · rename_i trV assets uploadsV heq
    split at h
    · have h₁ : trV ++ [Effect.render n th.key,
          Effect.upload (e ++ "/pages/" ++ th.key ++ "/" ++ padNumber n ++ ".webp") true]
          = tr := by
        simpa using congrArg Prod.fst h
      rw [← h₁]
      simp [List.countP_append, List.countP_cons, isUpload, processVariants_ok_count heq]
    · exact absurd (congrArg Prod.snd h) (by simp)

/-- On success, the page loop uploads page by page in ascending page
number starting at `start`, and the manifest entries carry exactly those
page numbers. -/
theorem processPages_ok_spec {env : Env} {e b su : String} {vs : List VariantSpec}
    {th : VariantSpec} {pages : List String} {start : Nat} {tr : List Effect}
    {entries : List PageEntry} {ups : List String}
    (h : processPages env e b su vs th start pages = (tr, .ok (entries, ups))) :
    ups = (List.range' start pages.length).flatMap (fun n =>
        vs.map (fun v => e ++ "/pages/" ++ v.key ++ "/" ++ padNumber n ++ ".webp")
          ++ [e ++ "/pages/" ++ th.key ++ "/" ++ padNumber n ++ ".webp"]) ∧
      entries.map PageEntry.pageNumber = List.range' start pages.length ∧
      entries.length = pages.length := by
  induction pages generalizing start tr entries ups with
  | nil =>
    simp only [processPages, Prod.mk.injEq, Except.ok.injEq] at h
    obtain ⟨-, hent, hups⟩ := h
    simp [← hent, ← hups]
  | cons png rest ih =>
    simp only [processPages] at h
    split at h
    · exact absurd (congrArg Prod.snd h) (by simp)
    · rename_i trP entry uploadsP heq
      split at h
      · exact absurd (congrArg Prod.snd h) (by simp)
      · rename_i trR entriesR uploadsR heq₂
        have h₂ := congrArg Prod.snd h
        simp only [Except.ok.injEq, Prod.mk.injEq] at h₂
        obtain ⟨hent, hups⟩ := h₂
        obtain ⟨hupP, hnum⟩ := processPage_ok_uploads heq
        obtain ⟨hupR, hmapR, hlenR⟩ := ih heq₂
        have hrange : List.range' start (rest.length + 1)
            = start :: List.range' (start + 1) rest.length := List.range'_succ ..
        refine ⟨?_, ?_, ?_⟩
        · rw [← hups, List.length_cons, hrange, List.flatMap_cons, hupP, hupR]
        · rw [← hent, List.length_cons, hrange, List.map_cons, hnum, hmapR]
        · rw [← hent, List.length_cons, List.length_cons, hlenR]

/-- Every upload event the page loop records targets a page-asset path. -/
theorem processPages_trace_shape {env : Env} {e b su : String} {vs : List VariantSpec}
    {th : VariantSpec} {pages : List String} {start : Nat} {p : String} {bb : Bool}
    (hm : Effect.upload p bb ∈ (processPages env e b su vs th start pages).1) :
    ∃ k n, p = e ++ "/pages/" ++ k ++ "/" ++ padNumber n ++ ".webp" := by
  induction pages generalizing start with
  | nil => simp [processPages] at hm
  | cons png rest ih =>
    simp only [processPages] at hm
    split at hm
    · rename_i trP msg heq
      have h₁ : trP = (processPage env e b su vs th start png).1 := by rw [heq]
      rw [h₁] at hm
      obtain ⟨k, hk⟩ := processPage_trace_shape hm
      exact ⟨k, start, hk⟩
    · rename_i trP entry uploadsP heq
      split at hm
      · rename_i trR msg heq₂
        rcases List.mem_append.mp hm with hm | hm
        · have h₁ : trP = (processPage env e b su vs th start png).1 := by rw [heq]
          rw [h₁] at hm
          obtain ⟨k, hk⟩ := processPage_trace_shape hm
          exact ⟨k, start, hk⟩
        · have h₁ : trR = (processPages env e b su vs th (start + 1) rest).1 := by rw [heq₂]
          rw [h₁] at hm
          exact ih hm
      · rename_i trR entriesR uploadsR heq₂
        rcases List.mem_append.mp hm with hm | hm
        · have h₁ : trP = (processPage env e b su vs th start png).1 := by rw [heq]
          rw [h₁] at hm
          obtain ⟨k, hk⟩ := processPage_trace_shape hm
          exact ⟨k, start, hk⟩
        · have h₁ : trR = (processPages env e b su vs th (start + 1) rest).1 := by rw [heq₂]
          rw [h₁] at hm
          exact ih hm

/-- On success, every upload event the page loop recorded succeeded. -/
theorem processPages_ok_all_true {env : Env} {e b su : String} {vs : List VariantSpec}
    {th : VariantSpec} {pages : List String} {start : Nat} {tr : List Effect}
    {res : List PageEntry × List String}
    (h : processPages env e b su vs th start pages = (tr, .ok res))
    {p : String} {bb : Bool} (hm : Effect.upload p bb ∈ tr) : bb = true := by
  induction pages generalizing start tr res with
  | nil =>
    have h₁ := congrArg Prod.fst h
    simp only [processPages] at h₁
    rw [← h₁] at hm
    cases hm
  | cons png rest ih =>
    simp only [processPages] at h
    split at h
    · exact absurd (congrArg Prod.snd h) (by simp)
    · rename_i trP entry uploadsP heq
      split at h
      · exact absurd (congrArg Prod.snd h) (by simp)
      · rename_i trR entriesR uploadsR heq₂
        have h₁ : trP ++ trR = tr := by simpa using congrArg Prod.fst h
        rw [← h₁] at hm
        rcases List.mem_append.mp hm with hm | hm
        · exact processPage_ok_all_true heq hm
        · exact ih heq₂ hm

/-- On success, the page loop records `pages.length * (vs.length + 1)`
uploads in total. -/
theorem processPages_ok_count {env : Env} {e b su : String} {vs : List VariantSpec}
    {th : VariantSpec} {pages : List String} {start : Nat} {tr : List Effect}
    {res : List PageEntry × List String}
    (h : processPages env e b su vs th start pages = (tr, .ok res)) :
    tr.countP isUpload = pages.length * (vs.length + 1) := by
  induction pages generalizing start tr res with
  | nil =>
    have h₁ := congrArg Prod.fst h
    simp only [processPages] at h₁
    simp [← h₁]
  | cons png rest ih =>
    simp only [processPages] at h
    split at h
    · exact absurd (congrArg Prod.snd h) (by simp)
    · rename_i trP entry uploadsP heq
      split at h
      · exact absurd (congrArg Prod.snd h) (by simp)
      · rename_i trR entriesR uploadsR heq₂
        have h₁ : trP ++ trR = tr := by simpa using congrArg Prod.fst h
        rw [← h₁]
        rw [List.countP_append, processPage_ok_count heq, ih heq₂]
        simp [List.length_cons, Nat.succ_mul, Nat.add_comm]

/-- Exhaustive case analysis of the handler: every run either fails before
any upload (with one of three effect prefixes), fails inside the page loop,
or reaches the manifest upload after a successful page loop. -/
theorem convertHandler_cases (env : Env) (req : ConvertRequest) :
    (∃ s m tr, convertHandler env req = (.err s m, tr) ∧
      (tr = [] ∨ tr = [Effect.createTempDir, Effect.download req.pdfUrl] ∨
       tr = [Effect.createTempDir, Effect.download req.pdfUrl, Effect.rasterize])) ∨
    (∃ trP msg, processPages env req.editionId (bucketOf env req) req.supabaseUrl
        (variantsOf req) (thumbOf req) 1 (pngPagesOf env) = (trP, Except.error msg) ∧
      convertHandler env req =
        (.err 500 msg,
         [Effect.createTempDir, Effect.download req.pdfUrl, Effect.rasterize] ++ trP)) ∨
    (∃ trP entries ups, processPages env req.editionId (bucketOf env req) req.supabaseUrl
        (variantsOf req) (thumbOf req) 1 (pngPagesOf env) = (trP, Except.ok (entries, ups)) ∧
      (pngPagesOf env).length ≠ 0 ∧
      ((env.uploadOk (mpOf req) = true ∧
        convertHandler env req =
          (.ok { editionId := req.editionId, bucket := bucketOf env req,
                 manifestPath := mpOf req, totalPages := entries.length,
                 pages := entries, uploads := ups },
           [Effect.createTempDir, Effect.download req.pdfUrl, Effect.rasterize] ++ trP
             ++ [Effect.upload (mpOf req) true, Effect.removeDir])) ∨
       (env.uploadOk (mpOf req) = false ∧
        convertHandler env req =
          (.err 500 ("Failed to upload " ++ mpOf req ++ ": upload error"),
           [Effect.createTempDir, Effect.download req.pdfUrl, Effect.rasterize] ++ trP
             ++ [Effect.upload (mpOf req) false])))) := by
  simp only [convertHandler]
  split
  · exact .inl ⟨401, "Unauthorized", [], rfl, .inl rfl⟩
  · split
    · exact .inl ⟨400, _, [], rfl, .inl rfl⟩
    · split
      · exact .inl ⟨500, _, _, rfl, .inr (.inl rfl)⟩
      · split
        · exact .inl ⟨500, _, _, rfl, .inr (.inr rfl)⟩
        · split
          · exact .inl ⟨500, _, _, rfl, .inr (.inr rfl)⟩
          · rename_i hlen
            split
            · rename_i trP msg heq
              exact .inr (.inl ⟨trP, msg, heq, rfl⟩)
            · rename_i trP entries ups heq
              have hb : req.bucket.getD env.defaultBucket = bucketOf env req := rfl
              rcases hup : env.uploadOk (mpOf req) with _ | _
              · refine .inr (.inr ⟨trP, entries, ups, heq, hlen, .inr ⟨rfl, ?_⟩⟩)
                have hup₂ : env.uploadOk (req.editionId ++ "/manifest.json") = false := hup
                rw [if_neg (by simp [hup₂])]
                simp [hup₂, mpOf]
              · refine .inr (.inr ⟨trP, entries, ups, heq, hlen, .inl ⟨rfl, ?_⟩⟩)
                have hup₂ : env.uploadOk (req.editionId ++ "/manifest.json") = true := hup
                rw [if_pos hup₂]
                simp [hup₂, buildManifest, List.length_map, mpOf, bucketOf]

/-- The source's `?? `-fallback chains coincide with the spec's field-by-field
fallback rule on every asset map. -/
theorem pageToSummary_eq_spec (tk : String) (p : PageEntry) :
    pageToSummary tk p = specPageSummary tk p := by
  simp only [pageToSummary, specPageSummary]
  cases h₁ : p.assets.lookup "low" <;> cases h₂ : p.assets.lookup "medium" <;>
    cases h₃ : p.assets.lookup "high" <;> cases h₄ : p.assets.lookup tk <;>
      simp [h₁, h₂, h₃, h₄, Option.orElse]

/-- The length of the per-page path block list. -/
theorem length_flatMap_pages {e tk : String} {vs : List VariantSpec} :
    ∀ (len start : Nat),
      ((List.range' start len).flatMap (fun n =>
          vs.map (fun v => e ++ "/pages/" ++ v.key ++ "/" ++ padNumber n ++ ".webp")
            ++ [e ++ "/pages/" ++ tk ++ "/" ++ padNumber n ++ ".webp"])).length
        = len * (vs.length + 1)
  | 0, _ => by simp
  | len + 1, start => by
    rw [List.range'_succ, List.flatMap_cons, List.length_append,
      length_flatMap_pages len (start + 1)]
    simp [Nat.succ_mul, Nat.add_comm]

/-- When no upload in a trace targets `mp`, counting asset uploads counts
all uploads. -/
theorem countP_assetUpload_eq {mp : String} {tr : List Effect}
    (hshape : ∀ p bb, Effect.upload p bb ∈ tr → p ≠ mp) :
    tr.countP (isAssetUpload mp) = tr.countP isUpload := by
  apply List.countP_congr
  intro ef hef
  cases ef with
  | upload p bb => simp [isAssetUpload, isUpload, bne_iff_ne, hshape p bb hef]
  | createTempDir => simp [isAssetUpload, isUpload]
  | download u => simp [isAssetUpload, isUpload]
  | rasterize => simp [isAssetUpload, isUpload]
  | render n k => simp [isAssetUpload, isUpload]
  | removeDir => simp [isAssetUpload, isUpload]

/-! ## Claim theorems -/

/-- Claim C6: every page entry of the published manifest carries the
independent per-field fallbacks of the spec — `lowResImagePath` is the low
variant's path else the medium variant's, `mediumImagePath` and
`highResImagePath` are the medium/high variant's path or absent, and
`thumbnailPath` is the path under the configured thumbnail key (also when
that key is customized), else the low variant's path, else absent. -/
theorem manifest_fallback_fields (e burl bk tk : String) (entries : List PageEntry) :
    (buildManifest e burl bk tk entries).pages = entries.map (specPageSummary tk) := by
  simp only [buildManifest]
  induction entries with
  | nil => rfl
  | cons p rest ih => simp only [List.map_cons, ih, pageToSummary_eq_spec]

/-- Claim C7 (counterexample): a variant spec whose `height` is present but
zero is resized proportionally, not with a cover fit, because the source
tests `if (config.height)` (JS truthiness). -/
theorem cover_fit_zero_height_counterexample :
    wCfgZeroHeight.height = some 0 ∧
    (cloneSharpForVariant wMeta wCfgZeroHeight).resize = ResizeOp.widthOnly 50 := by
  decide

/-- Claim C7 (amended): with the natural width known, the effective target
width is `min(spec.width, natural width)` and never exceeds the natural
width; a present *nonzero* height selects the cover fit to exactly
targetWidth × height, while an absent or zero height selects the
proportional width-only resize with enlargement disallowed. -/
theorem variant_resize_amended (meta : Metadata) (cfg : VariantSpec) (w : Nat)
    (hw : meta.width = some w) :
    (cloneSharpForVariant meta cfg).resize.targetWidth = min cfg.width w ∧
    (cloneSharpForVariant meta cfg).resize.targetWidth ≤ w ∧
    (∀ hh, cfg.height = some hh → hh ≠ 0 →
      (cloneSharpForVariant meta cfg).resize = ResizeOp.cover (min cfg.width w) hh) ∧
    ((cfg.height = none ∨ cfg.height = some 0) →
      (cloneSharpForVariant meta cfg).resize = ResizeOp.widthOnly (min cfg.width w)) ∧
    (cloneSharpForVariant meta cfg).quality = cfg.quality := by
  simp only [cloneSharpForVariant, hw, Option.getD_some]
  rcases hh : cfg.height with _ | h
  · simp [jsTruthyNat, ResizeOp.targetWidth, Nat.min_le_right]
  · by_cases h₀ : h = 0
    · subst h₀
      simp [jsTruthyNat, ResizeOp.targetWidth, Nat.min_le_right]
    · simp [jsTruthyNat, h₀, ResizeOp.targetWidth, Nat.min_le_right]

/-- Claim C7 witness: a 360×480 thumbnail spec on a 100-pixel-wide page is
cover-fitted to 100×480, and its width stays within the natural width. -/
theorem variant_resize_amended_witness :
    wMeta.width = some 100 ∧
    (cloneSharpForVariant wMeta wCfgCover).resize = ResizeOp.cover 100 480 ∧
    (cloneSharpForVariant wMeta wCfgCover).resize.targetWidth ≤ 100 := by
  have h := variant_resize_amended wMeta wCfgCover 100 rfl
  exact ⟨rfl, by simpa using h.2.2.1 480 rfl (by decide), h.2.1⟩

/-- Claim C5: the rasterizer adapter's output is sorted strictly ascending
by the numeric page index embedded in each filename (given the generated
files' indices, which are pairwise distinct), it is a permutation of the
filtered directory listing, and downstream 1-based page numbers are exactly
the positions 1..P in this sorted order. -/
theorem rasterizer_output_sorted :
    (∀ files : List String,
        ((filterPageFiles files).map pageIndexOf).Nodup →
        List.Sorted (· < ·) ((sortPageFiles files).map pageIndexOf) ∧
          (sortPageFiles files).Perm (filterPageFiles files)) ∧
    (∀ (env : Env) (req : ConvertRequest) (payload : SuccessPayload) (trace : List Effect),
        convertHandler env req = (.ok payload, trace) →
        payload.pages.map PageEntry.pageNumber = List.range' 1 (pngPagesOf env).length) := by
  constructor
  · intro files hnd
    have hperm : (sortPageFiles files).Perm (filterPageFiles files) :=
      List.perm_insertionSort pageLE (filterPageFiles files)
    refine ⟨?_, hperm⟩
    have hs : List.Sorted pageLE (sortPageFiles files) :=
      List.sorted_insertionSort pageLE (filterPageFiles files)
    have hle : List.Sorted (· ≤ ·) ((sortPageFiles files).map pageIndexOf) :=
      List.Pairwise.map pageIndexOf (fun _ _ h => h) hs
    have hnd₂ : ((sortPageFiles files).map pageIndexOf).Nodup :=
      ((hperm.map pageIndexOf).nodup_iff).mpr hnd
    exact hle.lt_of_le hnd₂
  · intro env req payload trace h
    rcases convertHandler_cases env req with ⟨s, m, tr, hE, -⟩ | ⟨trP, msg, -, hE⟩ |
      ⟨trP, entries, ups, hP, -, hcase⟩
    · rw [h] at hE
      exact absurd (congrArg Prod.fst hE) (by simp)
    · rw [h] at hE
      exact absurd (congrArg Prod.fst hE) (by simp)
    · rcases hcase with ⟨-, hE⟩ | ⟨-, hE⟩
      · rw [h] at hE
        have hfst := congrArg Prod.fst hE
        simp only [Response.ok.injEq] at hfst
        obtain ⟨-, hmapX, -⟩ := processPages_ok_spec hP
        rw [hfst]
        exact hmapX
      · rw [h] at hE
        exact absurd (congrArg Prod.fst hE) (by simp)

/-- Claim C5 witness: a file for page 10 sorts after the file for page 9
even though it sorts before it lexicographically. -/
theorem rasterizer_output_sorted_witness :
    List.Sorted (· < ·) ((sortPageFiles ["page-10.png", "page-9.png"]).map pageIndexOf) ∧
    sortPageFiles ["page-10.png", "page-9.png"] = ["page-9.png", "page-10.png"] := by
  refine ⟨(rasterizer_output_sorted.1 ["page-10.png", "page-9.png"] (by decide)).1, by decide⟩

/-- Claim C1 (code bug): when the rasterizer fails, the handler's catch
block returns the failure envelope without ever deleting the temporary
directory it created — the cleanup of server.js line 221 runs only on the
success path, so the failure trace contains `createTempDir` but no
`removeDir`. -/
theorem temp_dir_leaked_on_raster_failure :
    (convertHandler wEnvRasterFail wReqStd).1.success = false ∧
    Effect.createTempDir ∈ (convertHandler wEnvRasterFail wReqStd).2 ∧
    Effect.removeDir ∉ (convertHandler wEnvRasterFail wReqStd).2 := by
  decide

/-- Claim C8 (counterexample): a request with an empty `editionId` but a
wrong shared secret receives the 401 envelope, not the 400 validation
envelope the claim promises for every request with a missing field. -/
theorem missing_field_unauthorized_counterexample :
    wReqNoEdition.editionId = "" ∧
    (convertHandler wEnvSecret wReqNoEdition).1 = Response.err 401 "Unauthorized" := by
  decide

/-- Claim C8 (amended): for every request that passes the authorization
check and misses any of the four required fields, the handler returns the
400 validation envelope and performs no side effect at all — the effect
trace is empty. -/
theorem validation_fails_fast (env : Env) (req : ConvertRequest)
    (hauth : env.secret = "" ∨ req.headerApiKey.getD "" = env.secret)
    (hmiss : req.editionId = "" ∨ req.pdfUrl = "" ∨ req.supabaseUrl = ""
      ∨ req.supabaseKey = "") :
    convertHandler env req =
      (.err 400 "Missing required parameters (editionId, pdfUrl, supabaseUrl, supabaseKey)",
       []) := by
  have hA : ¬(env.secret ≠ "" ∧ req.headerApiKey.getD "" ≠ env.secret) := by
    rcases hauth with h | h
    · exact fun hc => hc.1 h
    · exact fun hc => hc.2 h
  simp only [convertHandler]
  rw [if_neg hA, if_pos hmiss]

/-- Claim C8 witness: with no secret configured, a request missing its
`editionId` gets the 400 envelope and an empty effect trace. -/
theorem validation_fails_fast_witness :
    Env.secret { } = "" ∧
    convertHandler { } wReqNoEdition =
      (.err 400 "Missing required parameters (editionId, pdfUrl, supabaseUrl, supabaseKey)",
       []) :=
  ⟨rfl, validation_fails_fast { } wReqNoEdition (.inl rfl) (.inl rfl)⟩

/-- Claim C9: when rasterization yields zero page files, the request fails
with the zero-pages error and the pipeline stops — the trace shows no
render, no upload and no manifest publication. -/
theorem zero_pages_aborts (env : Env) (req : ConvertRequest)
    (hauth : env.secret = "" ∨ req.headerApiKey.getD "" = env.secret)
    (he : req.editionId ≠ "") (hp : req.pdfUrl ≠ "") (hsu : req.supabaseUrl ≠ "")
    (hsk : req.supabaseKey ≠ "")
    (hd : env.downloadOk = true) (hr : env.rasterOk = true)
    (hzero : pngPagesOf env = []) :
    convertHandler env req =
      (.err 500 "No pages produced during PDF conversion",
       [Effect.createTempDir, Effect.download req.pdfUrl, Effect.rasterize]) := by
  have hA : ¬(env.secret ≠ "" ∧ req.headerApiKey.getD "" ≠ env.secret) := by
    rcases hauth with h | h
    · exact fun hc => hc.1 h
    · exact fun hc => hc.2 h
  have hV : ¬(req.editionId = "" ∨ req.pdfUrl = "" ∨ req.supabaseUrl = ""
      ∨ req.supabaseKey = "") := by
    simp [he, hp, hsu, hsk]
  have hz₂ : convertPdfToPng pngDirName env.rasterFiles = [] := hzero
  simp only [convertHandler]
  rw [if_neg hA, if_neg hV]
  simp [hd, hr, hz₂]

/-- Claim C9 witness: an empty rasterizer output directory aborts with the
zero-pages error right after the rasterize step. -/
theorem zero_pages_aborts_witness :
    convertHandler wEnvZeroPages wReqStd =
      (.err 500 "No pages produced during PDF conversion",
       [Effect.createTempDir, Effect.download "http://h/f.pdf", Effect.rasterize]) :=
  zero_pages_aborts wEnvZeroPages wReqStd (.inl rfl) (by decide) (by decide) (by decide)
    (by decide) rfl rfl rfl

/-- Claim C10: with no configured secret the authorization check is skipped
entirely (the response and effects do not depend on the `X-Api-Key` header
at all), while with a non-empty secret any request whose header differs
from it is answered 401 with `success: false` before any validation or
pipeline work — the effect trace is empty. -/
theorem shared_secret_check :
    (∀ (env : Env) (req : ConvertRequest) (h₁ h₂ : Option String), env.secret = "" →
        convertHandler env { req with headerApiKey := h₁ }
          = convertHandler env { req with headerApiKey := h₂ }) ∧
    (∀ (env : Env) (req : ConvertRequest), env.secret = "" →
        (convertHandler env req).1.status ≠ 401) ∧
    (∀ (env : Env) (req : ConvertRequest), env.secret ≠ "" →
        req.headerApiKey.getD "" ≠ env.secret →
        convertHandler env req = (.err 401 "Unauthorized", [])) := by
  refine ⟨?_, ?_, ?_⟩
  · intro env req h₁ h₂ hs
    simp [convertHandler, hs]
  · intro env req hs
    have hA : ¬(env.secret ≠ "" ∧ req.headerApiKey.getD "" ≠ env.secret) :=
      fun hc => hc.1 hs
    simp only [convertHandler]
    rw [if_neg hA]
    split
    · simp [Response.status]
    · split
      · simp [Response.status]
      · split
        · simp [Response.status]
        · split
          · simp [Response.status]
          · split
            · simp [Response.status]
            · split
              · simp [Response.status]
              · simp [Response.status]
  · intro env req hs hh
    rw [convertHandler, if_pos ⟨hs, hh⟩]

/-- Claim C10 witness: with an empty secret two different headers give the
same run; with secret "s" and no header the handler answers 401 with no
effects. -/
theorem shared_secret_check_witness :
    convertHandler { } { wReqStd with headerApiKey := some "anything" }
        = convertHandler { } { wReqStd with headerApiKey := none } ∧
    (convertHandler { } wReqStd).1.status ≠ 401 ∧
    convertHandler wEnvSecret wReqStd = (.err 401 "Unauthorized", []) :=
  ⟨shared_secret_check.1 { } wReqStd (some "anything") none rfl,
   shared_secret_check.2.1 { } wReqStd rfl,
   shared_secret_check.2.2 wEnvSecret wReqStd (by decide) (by decide)⟩

/-- Claim C2: on every successful run the uploaded page-asset paths are
exactly the deterministic `editionId/pages/variantKey/NNN.webp` paths of
the spec's convention — for the configured variants and the thumbnail
alike, pages in order — and the manifest is uploaded at exactly
`editionId/manifest.json`; the paths depend only on the edition id, the
variant keys and the page count, so re-running the same request reproduces
them identically. -/
theorem storage_paths_deterministic (env : Env) (req : ConvertRequest)
    (payload : SuccessPayload) (trace : List Effect)
    (h : convertHandler env req = (.ok payload, trace)) :
    payload.uploads = specUploadPaths req.editionId (variantsOf req) (thumbOf req).key
        (pngPagesOf env).length ∧
    payload.manifestPath = req.editionId ++ "/manifest.json" := by
  rcases convertHandler_cases env req with ⟨s, m, tr, hE, -⟩ | ⟨trP, msg, -, hE⟩ |
    ⟨trP, entries, ups, hP, -, hcase⟩
  · rw [h] at hE
    exact absurd (congrArg Prod.fst hE) (by simp)
  · rw [h] at hE
    exact absurd (congrArg Prod.fst hE) (by simp)
  · rcases hcase with ⟨-, hE⟩ | ⟨-, hE⟩
    · rw [h] at hE
      have hfst := congrArg Prod.fst hE
      simp only [Response.ok.injEq] at hfst
      obtain ⟨hupX, -, -⟩ := processPages_ok_spec hP
      rw [hfst]
      refine ⟨?_, rfl⟩
      simp only [specUploadPaths]
      exact hupX
    · rw [h] at hE
      exact absurd (congrArg Prod.fst hE) (by simp)

/-- Claim C2 witness: the one-page run uploads exactly the two convention
paths and the manifest path is `ed/manifest.json`. -/
theorem storage_paths_deterministic_witness :
    (convertHandler wEnvOk wReqStd).1 = Response.ok wPayloadStd ∧
    wPayloadStd.uploads = specUploadPaths "ed" (variantsOf wReqStd) "thumbnail" 1 ∧
    wPayloadStd.manifestPath = "ed/manifest.json" := by
  have h₀ : convertHandler wEnvOk wReqStd = (Response.ok wPayloadStd, wTraceStd) := by decide
  have h := storage_paths_deterministic wEnvOk wReqStd wPayloadStd wTraceStd h₀
  exact ⟨by rw [h₀], h.1, h.2⟩

/-- Claim C3: every success response carries exactly P page entries and
exactly P×(V+1) uploaded asset paths, and the manifest's own storage path
is not among them. -/
theorem response_counts (env : Env) (req : ConvertRequest)
    (payload : SuccessPayload) (trace : List Effect)
    (h : convertHandler env req = (.ok payload, trace)) :
    payload.pages.length = (pngPagesOf env).length ∧
    payload.uploads.length = (pngPagesOf env).length * ((variantsOf req).length + 1) ∧
    payload.manifestPath ∉ payload.uploads := by
  rcases convertHandler_cases env req with ⟨s, m, tr, hE, -⟩ | ⟨trP, msg, -, hE⟩ |
    ⟨trP, entries, ups, hP, -, hcase⟩
  · rw [h] at hE
    exact absurd (congrArg Prod.fst hE) (by simp)
  · rw [h] at hE
    exact absurd (congrArg Prod.fst hE) (by simp)
  · rcases hcase with ⟨-, hE⟩ | ⟨-, hE⟩
    · rw [h] at hE
      have hfst := congrArg Prod.fst hE
      simp only [Response.ok.injEq] at hfst
      obtain ⟨hupX, -, hlenX⟩ := processPages_ok_spec hP
      rw [hfst]
      refine ⟨hlenX, ?_, ?_⟩
      · rw [hupX, length_flatMap_pages]
      · intro hmem
        rw [hupX] at hmem
        obtain ⟨k, n, hkn⟩ := mem_specUploadPaths hmem
        exact asset_path_ne_manifest req.editionId k (padNumber n) hkn.symm
    · rw [h] at hE
      exact absurd (congrArg Prod.fst hE) (by simp)

/-- Claim C3 witness: one page and one configured variant give one page
entry and 1×(1+1) uploads, none of which is the manifest path. -/
theorem response_counts_witness :
    wPayloadStd.pages.length = 1 ∧ wPayloadStd.uploads.length = 1 * (1 + 1) ∧
    wPayloadStd.manifestPath ∉ wPayloadStd.uploads := by
  have h₀ : convertHandler wEnvOk wReqStd = (Response.ok wPayloadStd, wTraceStd) := by decide
  have h := response_counts wEnvOk wReqStd wPayloadStd wTraceStd h₀
  exact ⟨h.1, h.2.1, h.2.2⟩

/-- Claim C4: a failed page-asset upload makes the whole request fail and
the manifest is never uploaded in that run; conversely, whenever the
manifest upload is attempted, every one of the P×(V+1) page-asset uploads
has already happened and succeeded. -/
theorem manifest_only_after_uploads (env : Env) (req : ConvertRequest)
    (resp : Response) (trace : List Effect)
    (h : convertHandler env req = (resp, trace)) :
    ((∃ p, p ≠ mpOf req ∧ Effect.upload p false ∈ trace) →
      resp.success = false ∧ ∀ bb, Effect.upload (mpOf req) bb ∉ trace) ∧
    (∀ bb, Effect.upload (mpOf req) bb ∈ trace →
      (∀ p bb₂, Effect.upload p bb₂ ∈ trace → p = mpOf req ∨ bb₂ = true) ∧
      trace.countP (isAssetUpload (mpOf req))
        = (pngPagesOf env).length * ((variantsOf req).length + 1)) := by
  rcases convertHandler_cases env req with ⟨s, m, tr, hE, htr⟩ | ⟨trP, msg, hP, hE⟩ |
    ⟨trP, entries, ups, hP, -, hcase⟩
  · rw [h] at hE
    have h₁ : resp = .err s m := by simpa using congrArg Prod.fst hE
    have h₂ : trace = tr := by simpa using congrArg Prod.snd hE
    have hnoup : ∀ (p : String) (bb : Bool), Effect.upload p bb ∉ trace := by
      rcases htr with rfl | rfl | rfl <;> (rw [h₂]; simp)
    constructor
    · rintro ⟨p, -, hmem⟩
      exact absurd hmem (hnoup p false)
    · intro bb hmem
      exact absurd hmem (hnoup _ _)
  · rw [h] at hE
    have h₁ : resp = .err 500 msg := by simpa using congrArg Prod.fst hE
    have h₂ : trace = [Effect.createTempDir, Effect.download req.pdfUrl, Effect.rasterize]
        ++ trP := by simpa using congrArg Prod.snd hE
    have hshape : ∀ (p : String) (bb : Bool), Effect.upload p bb ∈ trP →
        ∃ k n, p = req.editionId ++ "/pages/" ++ k ++ "/" ++ padNumber n ++ ".webp" := by
      intro p bb hm
      have htr₁ : trP = (processPages env req.editionId (bucketOf env req) req.supabaseUrl
          (variantsOf req) (thumbOf req) 1 (pngPagesOf env)).1 := by rw [hP]
      rw [htr₁] at hm
      exact processPages_trace_shape hm
    have hnomp : ∀ bb, Effect.upload (mpOf req) bb ∉ trace := by
      intro bb hmem
      rw [h₂] at hmem
      rcases List.mem_append.mp hmem with hm | hm
      · simp at hm
      · obtain ⟨k, n, hkn⟩ := hshape _ _ hm
        exact asset_path_ne_manifest req.editionId k (padNumber n) hkn.symm
    refine ⟨fun _ => ⟨by simp [h₁, Response.success], hnomp⟩,
      fun bb hmem => absurd hmem (hnomp bb)⟩
  · have hshape : ∀ (p : String) (bb : Bool), Effect.upload p bb ∈ trP →
        ∃ k n, p = req.editionId ++ "/pages/" ++ k ++ "/" ++ padNumber n ++ ".webp" := by
      intro p bb hm
      have htr₁ : trP = (processPages env req.editionId (bucketOf env req) req.supabaseUrl
          (variantsOf req) (thumbOf req) 1 (pngPagesOf env)).1 := by rw [hP]
      rw [htr₁] at hm
      exact processPages_trace_shape hm
    have hpne : ∀ (p : String) (bb : Bool), Effect.upload p bb ∈ trP → p ≠ mpOf req := by
      intro p bb hm hc
      obtain ⟨k, n, hkn⟩ := hshape p bb hm
      exact asset_path_ne_manifest req.editionId k (padNumber n) ((hc ▸ hkn).symm)
    have htrue : ∀ (p : String) (bb : Bool), Effect.upload p bb ∈ trP → bb = true :=
      fun p bb hm => processPages_ok_all_true hP hm
    have hcnt : trP.countP (isAssetUpload (mpOf req))
        = (pngPagesOf env).length * ((variantsOf req).length + 1) := by
      rw [countP_assetUpload_eq (fun p bb hm => hpne p bb hm), processPages_ok_count hP]
    rcases hcase with ⟨-, hE⟩ | ⟨-, hE⟩
    · rw [h] at hE
      have h₂ : trace = [Effect.createTempDir, Effect.download req.pdfUrl, Effect.rasterize]
          ++ trP ++ [Effect.upload (mpOf req) true, Effect.removeDir] := by
        simpa using congrArg Prod.snd hE
      constructor
      · rintro ⟨p, hp, hmem⟩
        rw [h₂] at hmem
        rcases List.mem_append.mp hmem with hm | hm
        · rcases List.mem_append.mp hm with hm | hm
          · simp at hm
          · exact Bool.noConfusion (htrue p false hm)
        · simp at hm
      · intro bb hmem
        constructor
        · intro p bb₂ hmem₂
          rw [h₂] at hmem₂
          rcases List.mem_append.mp hmem₂ with hm | hm
          · rcases List.mem_append.mp hm with hm | hm
            · simp at hm
            · exact .inr (htrue p bb₂ hm)
          · simp only [List.mem_cons, List.not_mem_nil, or_false] at hm
            rcases hm with heq | heq
            · cases heq
              exact .inl rfl
            · exact absurd heq (by simp)
        · rw [h₂, List.countP_append, List.countP_append, hcnt]
          simp [List.countP_cons, isAssetUpload]
    · rw [h] at hE
      have h₁ : resp = .err 500 ("Failed to upload " ++ mpOf req ++ ": upload error") := by
        simpa using congrArg Prod.fst hE
      have h₂ : trace = [Effect.createTempDir, Effect.download req.pdfUrl, Effect.rasterize]
          ++ trP ++ [Effect.upload (mpOf req) false] := by
        simpa using congrArg Prod.snd hE
      constructor
      · rintro ⟨p, hp, hmem⟩
        rw [h₂] at hmem
        rcases List.mem_append.mp hmem with hm | hm
        · rcases List.mem_append.mp hm with hm | hm
          · simp at hm
          · exact Bool.noConfusion (htrue p false hm)
        · simp only [List.mem_cons, List.not_mem_nil, or_false] at hm
          cases hm
          exact absurd rfl hp
      · intro bb hmem
        constructor
        · intro p bb₂ hmem₂
          rw [h₂] at hmem₂
          rcases List.mem_append.mp hmem₂ with hm | hm
          · rcases List.mem_append.mp hm with hm | hm
            · simp at hm
            · exact .inr (htrue p bb₂ hm)
          · simp only [List.mem_cons, List.not_mem_nil, or_false] at hm
            cases hm
            exact .inl rfl
        · rw [h₂, List.countP_append, List.countP_append, hcnt]
          simp [List.countP_cons, isAssetUpload]

/-- Claim C4 witness: with the first page-asset upload failing, the run
fails and no manifest upload (successful or failed) appears in the trace. -/
theorem manifest_only_after_uploads_witness :
    (convertHandler wEnvUploadFail wReqStd).1.success = false ∧
    Effect.upload "ed/manifest.json" true ∉ (convertHandler wEnvUploadFail wReqStd).2 ∧
    Effect.upload "ed/manifest.json" false ∉ (convertHandler wEnvUploadFail wReqStd).2 := by
  have h := (manifest_only_after_uploads wEnvUploadFail wReqStd
      (convertHandler wEnvUploadFail wReqStd).1 (convertHandler wEnvUploadFail wReqStd).2
      rfl).1 ⟨"ed/pages/low/001.webp", by decide, by decide⟩
  have hmp : mpOf wReqStd = "ed/manifest.json" := by decide
  refine ⟨h.1, ?_, ?_⟩
  · have h₂ := h.2 true
    rw [hmp] at h₂
    exact h₂
  · have h₂ := h.2 false
    rw [hmp] at h₂
    exact h₂

end ConversionService
